import Mathlib

set_option linter.unusedVariables false

/-!
Shallow embedding of the Peroxidecast streaming relay core
(src/state.rs, src/net/connector.rs, src/net/socket.rs).

Modelling conventions:
* Tokio channel handles are abstracted by the observations the code makes
  of them: a mount's `sub_sender` becomes the boolean `sub_sender_closed`
  (the value `sub_sender.is_closed()` returns at the current observation
  instant), and `stat_receiver` becomes `stat_snapshot` (the `Stats` value
  `stat_receiver.borrow()` currently holds).  Freshly created channels are
  open and hold `Stats::new()`.
* The registry `HashMap<String, Mount>` is an association list with unique
  keys; the uniqueness assumption appears as an explicit `Nodup` hypothesis
  where a proof needs it.
* Lock acquisition (`RwLock`) and `await` points are sequentialised: each
  handler is a pure function from the pre-state to the post-state plus its
  observable output.  Cross-task interleavings that the code can actually
  observe (a channel closing between two observations) are surfaced as
  explicit parameters.
-/

/-- Struct `Stats` from src/state.rs: per-mount counters. -/
structure Stats where
  sub_count : Nat
  bytes_in : Nat
  bytes_out : Nat
  deriving Repr, DecidableEq

/-- Constructor `Stats::new()` from src/state.rs. -/
def Stats.new : Stats :=
  { bytes_in := 0, bytes_out := 0, sub_count := 0 }

/-- An HTTP header as the handlers observe it: a name and the result of
`std::str::from_utf8` on its value (`none` models bytes that are not valid
UTF-8, which the code treats as an absent value). -/
structure Header where
  name : String
  value : Option String
  deriving Repr, DecidableEq

/-- Struct `IceMeta` from src/state.rs. -/
structure IceMeta where
  public : Option Int
  name : Option String
  description : Option String
  genre : Option String
  url : Option String
  irc : Option String
  aim : Option String
  icq : Option String
  audio_info : Option String
  deriving Repr, DecidableEq

/-- Default `IceMeta::default()`: every field absent. -/
def IceMeta.empty : IceMeta :=
  { public := none, name := none, description := none, genre := none,
    url := none, irc := none, aim := none, icq := none, audio_info := none }

/-- First header with the given name, then its UTF-8 decoded value
(the `v.iter().find(|h| h.name == $name)` step of the `extract_val!` macro
in src/state.rs). -/
def findHeaderValue (hs : List Header) (name : String) : Option String :=
  (hs.find? (fun h => h.name == name)).bind (fun h => h.value)

/-- String-typed field extraction of `extract_val!` in src/state.rs:
an empty string is treated as absent; `String::from_str` never fails. -/
def extractString (hs : List Header) (name : String) : Option String :=
  match findHeaderValue hs name with
  | some s => if s == "" then none else some s
  | none => none

/-- Value of a decimal digit character. -/
def digitVal (c : Char) : Option Nat :=
  if '0' ≤ c ∧ c ≤ '9' then some (c.toNat - '0'.toNat) else none

/-- Decimal value of a digit run; fails on any non-digit. -/
def digitsToNat (acc : Nat) : List Char → Option Nat
  | [] => some acc
  | c :: rest =>
      match digitVal c with
      | some d => digitsToNat (acc * 10 + d) rest
      | none => none

/-- Parser `i32::from_str`, as used for `ice-public`: an optional sign, then one or
more decimal digits; the empty digit run and out-of-range values fail. -/
def parseI32 (s : String) : Option Int :=
  let core := fun (sign : Int) (cs : List Char) =>
    match cs with
    | [] => none
    | _ =>
      match digitsToNat 0 cs with
      | some n =>
          let v : Int := sign * n
          if -2147483648 ≤ v ∧ v ≤ 2147483647 then some v else none
      | none => none
  match s.data with
  | '-' :: rest => core (-1) rest
  | '+' :: rest => core 1 rest
  | cs => core 1 cs

/-- Rust `str::starts_with` on a string pattern. -/
def strStartsWith (s pat : String) : Bool :=
  pat.data.isPrefixOf s.data

/-- Rust `str::ends_with` on a string pattern. -/
def strEndsWith (s pat : String) : Bool :=
  pat.data.reverse.isPrefixOf s.data.reverse

/-- Rust `str::split` on a single-character pattern, over the character list:
always at least one (possibly empty) piece, empty pieces between adjacent
separators. -/
def splitChar (sep : Char) : List Char → List String
  | [] => [""]
  | c :: rest =>
      if c == sep then "" :: splitChar sep rest
      else
        match splitChar sep rest with
        | s :: tail => String.mk (c :: s.data) :: tail
        | [] => [String.mk [c]]

/-- Rust `str::split` on a single-character pattern. -/
def strSplit (s : String) (sep : Char) : List String :=
  splitChar sep s.data

/-- Integer-typed field extraction of `extract_val!` in src/state.rs. -/
def extractI32 (hs : List Header) (name : String) : Option Int :=
  match extractString hs name with
  | some s => parseI32 s
  | none => none

/-- Conversion `From<&[Header]> for IceMeta` in src/state.rs. -/
def IceMeta.fromHeaders (hs : List Header) : IceMeta :=
  { public := extractI32 hs "ice-public"
    name := extractString hs "ice-name"
    description := extractString hs "ice-description"
    genre := extractString hs "ice-genre"
    url := extractString hs "ice-url"
    irc := extractString hs "ice-irc"
    aim := extractString hs "ice-aim"
    icq := extractString hs "ice-icq"
    audio_info := extractString hs "ice-audio-info" }

/-- One `append!` step of `IceMeta::as_headers` in src/state.rs:
a present field contributes the single entry `name:value`. -/
def optHeader (name : String) (value : Option String) : List String :=
  match value with
  | some v => [name ++ ":" ++ v]
  | none => []

/-- Method `IceMeta::as_headers` from src/state.rs, in the source's append order. -/
def IceMeta.as_headers (m : IceMeta) : List String :=
  optHeader "icy-pub" (m.public.map (fun v => toString v))
    ++ optHeader "icy-name" m.name
    ++ optHeader "icy-description" m.description
    ++ optHeader "icy-genre" m.genre
    ++ optHeader "icy-url" m.url
    ++ optHeader "icy-irc" m.irc
    ++ optHeader "icy-aim" m.aim
    ++ optHeader "icy-icq" m.icq
    ++ optHeader "ice-audio-info" m.audio_info

/-- Renders one `(header-name, optional field)` pair, used to state what a
single `as_headers` entry looks like. -/
def renderField (p : String × Option String) : Option String :=
  p.2.map (fun v => p.1 ++ ":" ++ v)

/-- Struct `Mount` from src/state.rs.  `sub_sender_closed` models
`sub_sender.is_closed()` at the current observation instant and
`stat_snapshot` models the `Stats` value `stat_receiver.borrow()` holds. -/
structure Mount where
  content_type : String
  sub_sender_closed : Bool
  stat_snapshot : Stats
  permanent : Bool
  source_auth : Option String
  sub_auth : Option String
  song : Option String
  meta : IceMeta
  deriving Repr, DecidableEq

/-- Constructor `Mount::new` from src/state.rs (`song` starts out `None`); the channel
arguments are abstracted to the closedness of the subscriber channel and the
stats value the watch channel holds. -/
def Mount.new (content_type : String) (sub_sender_closed : Bool)
    (stat_snapshot : Stats) (source_auth sub_auth : Option String)
    (permanent : Bool) (meta : IceMeta) : Mount :=
  { content_type, sub_sender_closed, stat_snapshot, source_auth, sub_auth,
    permanent, meta, song := none }

/-- Method `Mount::is_connected` from src/state.rs: `!self.sub_sender.is_closed()`. -/
def Mount.is_connected (m : Mount) : Bool :=
  !m.sub_sender_closed

/-- Method `Mount::stats` from src/state.rs: `self.stat_receiver.borrow().clone()`. -/
def Mount.stats (m : Mount) : Stats :=
  m.stat_snapshot

/-- Method `Mount::metadata` from src/state.rs. -/
def Mount.metadata (m : Mount) : IceMeta :=
  m.meta

/-- Method `Mount::set_source` from src/state.rs: replaces the subscriber channel
(fresh, hence open), the stats channel (fresh, holding `Stats::new()`), the
content type and the metadata. -/
def Mount.set_source (m : Mount) (content_type : String) (meta : IceMeta) :
    Mount :=
  { m with sub_sender_closed := false, stat_snapshot := Stats.new,
           content_type := content_type, meta := meta }

/-- Method `Mount::set_song` from src/state.rs. -/
def Mount.set_song (m : Mount) (song : String) : Mount :=
  { m with song := some song }

/-- The registry `State { mounts: HashMap<String, Mount> }` from
src/state.rs, as an association list with unique keys. -/
abbrev Registry := List (String × Mount)

/-- Operation `HashMap::contains_key` on the association-list registry. -/
def State.containsKey (st : Registry) (mount_name : String) : Bool :=
  st.any (fun q => q.1 == mount_name)

/-- Method `State::find_mount` from src/state.rs. -/
def State.find_mount (st : Registry) (mount_name : String) : Option Mount :=
  (st.find? (fun q => q.1 == mount_name)).map (fun q => q.2)

/-- Method `State::add_mount` from src/state.rs: insert only when the key is
absent; the returned boolean reports whether the insert happened. -/
def State.add_mount (st : Registry) (mount_name : String) (stream : Mount) :
    Registry × Bool :=
  if State.containsKey st mount_name then (st, false)
  else (st ++ [(mount_name, stream)], true)

/-- In-place update of the mount stored under a key, the effect of a
`find_mount_mut`/`mounts_mut().find(...)` followed by a mutation. -/
def State.updateAt (st : Registry) (mount_name : String) (f : Mount → Mount) :
    Registry :=
  st.map (fun q => if q.1 == mount_name then (q.1, f q.2) else q)

/-- Effect on the registry of `mount.set_source(...)` through
`find_mount_mut` (src/net/connector.rs line 154-156). -/
def State.set_source_at (st : Registry) (mount_name content_type : String)
    (meta : IceMeta) : Registry :=
  State.updateAt st mount_name (fun m => Mount.set_source m content_type meta)

/-- Effect on the registry of the admin handler's
`mounts_mut().find(...).map(|m| m.1.set_song(...))`
(src/net/socket.rs lines 240-246). -/
def State.set_song_at (st : Registry) (mount_name song : String) : Registry :=
  State.updateAt st mount_name (fun m => Mount.set_song m song)

/-- Method `State::clean_disconnected_mounts` from src/state.rs: collect every key
whose mount is neither connected nor permanent, remove each collected key,
return how many keys were collected. -/
def State.clean_disconnected_mounts (st : Registry) : Registry × Nat :=
  let to_remove :=
    (st.filter (fun q => !(q.2.is_connected || q.2.permanent))).map Prod.fst
  (to_remove.foldl (fun acc k => acc.filter (fun q => !(q.1 == k))) st,
   to_remove.length)

/-- Struct `Config` from src/config.rs, restricted to the fields the embedded
handlers read (`default_stream_url` and the pre-registered `mounts` table
are consumed only at startup). -/
structure Config where
  admin_authorization : Option String
  allow_unauthenticated_mounts : Bool
  static_source_dir : Option String
  deriving Repr, DecidableEq

/-- Enum `CreateConnectorError` from src/net/connector.rs. -/
inductive CreateConnectorError where
  | UnknownMethod (method : String)
  | MountHasSource (mount_path : String)
  | MountDoesNotExist (mount_path : String)
  | SourceMissingContentType
  | Unauthorized
  | MountNotConnected (mount_path : String)
  deriving Repr, DecidableEq

/-- Enum `ConnectorKind` from src/net/connector.rs, keeping the data the claims
observe: a sink carries the metadata snapshot and content type captured at
attach time, a source carries its starting `Stats`. -/
inductive ConnectorKind where
  | Sink (mount_meta : IceMeta) (content_type : String)
  | Source (start_stats : Stats)
  deriving Repr, DecidableEq

/-- The `is_admin` computation shared by `Connector::parse`
(src/net/connector.rs lines 99-105) and `SocketHandler::admin`
(src/net/socket.rs lines 179-180). -/
def isAdmin (config : Config) (authorization : Option String) : Bool :=
  match authorization with
  | some a =>
      config.admin_authorization.isSome
        && (some a == config.admin_authorization)
  | none => false

/-- Method `Connector::parse` from src/net/connector.rs (lines 82-237), with the
socket halves and the `remote` tag dropped.  `send_fails` records whether
`mount.sub_sender().send(data_tx)` would fail at the instant the GET branch
performs it (the consumer can be dropped between the `is_connected`
observation and the send); the source discards that result with `.ok()`,
which the embedding mirrors by never consulting the parameter. -/
def Connector.parse (config : Config) (st : Registry)
    (method mount_path : String) (content_type authorization : Option String)
    (headers : List Header) (send_fails : Bool) :
    Except CreateConnectorError (ConnectorKind × Registry) :=
  if method == "SOURCE" then
    match content_type with
    | none => .error .SourceMissingContentType
    | some content_type =>
      let meta := IceMeta.fromHeaders headers
      match State.find_mount st mount_path with
      | some mount =>
          if !isAdmin config authorization && mount.source_auth.isSome
              && !(mount.source_auth == authorization) then
            .error .Unauthorized
          else if mount.is_connected then
            .error (.MountHasSource mount_path)
          else
            .ok (.Source (Mount.stats mount),
                 State.set_source_at st mount_path content_type meta)
      | none =>
          if !isAdmin config authorization
              && !config.allow_unauthenticated_mounts then
            .error .Unauthorized
          else
            .ok (.Source Stats.new,
                 (State.add_mount st mount_path
                   (Mount.new content_type false Stats.new authorization none
                     false meta)).1)
  else if method == "GET" then
    match State.find_mount st mount_path with
    | some mount =>
        if mount.sub_auth.isSome && !(mount.sub_auth == authorization) then
          .error .Unauthorized
        else if !mount.is_connected then
          .error (.MountNotConnected mount_path)
        else
          .ok (.Sink (Mount.metadata mount) mount.content_type, st)
    | none => .error (.MountDoesNotExist mount_path)
  else
    .error (.UnknownMethod method)

/-- The status-line responses of `BasicHttpResponse` (src/net/socket.rs)
that the embedded handlers emit. -/
inductive Response where
  | ok200
  | unauthorized
  | notFound
  | badRequest
  deriving Repr, DecidableEq

/-- One hexadecimal digit, as `urlencoding::decode` reads it. -/
def hexDigit (c : Char) : Option Nat :=
  if '0' ≤ c ∧ c ≤ '9' then some (c.toNat - '0'.toNat)
  else if 'a' ≤ c ∧ c ≤ 'f' then some (c.toNat - 'a'.toNat + 10)
  else if 'A' ≤ c ∧ c ≤ 'F' then some (c.toNat - 'A'.toNat + 10)
  else none

/-- Percent-decoding on a character list: `%hh` becomes the character with
code `hh`, malformed escapes pass through unchanged. -/
def percentDecodeChars : List Char → List Char
  | [] => []
  | '%' :: a :: b :: rest =>
      match hexDigit a, hexDigit b with
      | some hi, some lo => Char.ofNat (hi * 16 + lo) :: percentDecodeChars rest
      | _, _ => '%' :: percentDecodeChars (a :: b :: rest)
  | c :: rest => c :: percentDecodeChars rest

/-- Call `urlencoding::decode(..).expect("UTF-8").to_string()` as the admin
handler uses it, modelled faithfully for ASCII percent-encodings (the only
ones the claims exercise; multi-byte UTF-8 escapes, where the Rust call can
panic, are outside the embedding). -/
def urlDecode (s : String) : String :=
  String.mk (percentDecodeChars s.data)

/-- Method `SocketHandler::admin` from src/net/socket.rs (lines 167-251): takes the
full request URI and the `Authorization` header, returns the registry after
the handler (the song update runs under the registry write lock) and the
list of responses written to the socket, in order.  The Rust success path
falls off the end of the function without writing anything, which the
embedding renders as an empty response list. -/
def SocketHandler.admin (config : Config) (st : Registry) (uri : String)
    (authorization : Option String) : Registry × List Response :=
  match authorization with
  | none => (st, [.unauthorized])
  | some auth =>
    let is_admin := isAdmin config (some auth)
    let uri1 := uri.drop "/admin/".length
    if strStartsWith uri1 "metadata?" then
      let values := strSplit (uri1.drop "metadata?".length) '&'
      let find_key := fun (name : String) =>
        (values.find? (fun v => strStartsWith v name)).map
          (fun v => urlDecode (v.drop name.length))
      match find_key "mount=" with
      | none => (st, [.badRequest])
      | some mount_name =>
        match State.find_mount st mount_name with
        | none => (st, [.notFound])
        | some mount =>
          if !is_admin && mount.source_auth.isSome
              && !(mount.source_auth == some auth) then
            (st, [.unauthorized])
          else if !(find_key "mode=" == some "updinfo") then
            (st, [.badRequest])
          else
            match find_key "song=" with
            | none => (st, [.badRequest])
            | some song => (State.set_song_at st mount_name song, [])
    else (st, [.badRequest])

/-- What `SocketHandler::static_file` (src/net/socket.rs lines 253-308)
decides before touching the filesystem: either it writes `404 Not found`
and returns without opening or reading any file, or it proceeds to
`fs::metadata`/`File::open` on the computed path. -/
inductive StaticAction where
  | respondNotFound
  | serveFile (path : String)
  deriving Repr, DecidableEq

/-- Operation `PathBuf::push`: an absolute component replaces the base path. -/
def pathPush (base rel : String) : String :=
  if strStartsWith rel "/" then rel
  else if strEndsWith base "/" then base ++ rel
  else base ++ "/" ++ rel

/-- The filesystem-free prefix of `SocketHandler::static_file`
(src/net/socket.rs lines 253-308): strip `/static/`, reject the request with
`404 Not found` when no static directory is configured or when any
slash-separated segment is `.`, `..` or `~`; otherwise continue to the
filesystem with the pushed path. -/
def SocketHandler.static_file (static_source_dir : Option String)
    (uri : String) : StaticAction :=
  let stripped := uri.drop "/static/".length
  match static_source_dir with
  | some dir =>
      if (strSplit stripped '/').any
          (fun part => part == "." || part == ".." || part == "~") then
        .respondNotFound
      else
        .serveFile (pathPush dir stripped)
  | none => .respondNotFound

/-- A subscriber's per-sink channel in the source pump, identified by the
time at which its consumer is dropped (`none` = never): `is_closed()` and
send failure at time `t` both observe `t` past that point. -/
abbrev SubChannel := Option Nat

/-- Whether a per-sink channel is closed at time `t` (seconds). -/
def SubChannel.closedAt (s : SubChannel) (t : Nat) : Bool :=
  match s with
  | some c => c ≤ t
  | none => false

/-- Accumulated state of the `Connector::do_data_mirroring` loop
(src/net/connector.rs lines 304-358): the shared subscriber vector, the
stats being built, and (instrumentation for the proofs) the times at which
a sweep of disconnected subscribers ran. -/
structure MirrorAcc where
  subs : List SubChannel
  stats : Stats
  sweeps : List Nat
  deriving Repr, DecidableEq

/-- One iteration of the reader/broadcaster loop at time `now` for a
successful non-empty read of `n` bytes, with `last_sub_clean` passed in
unchanged every iteration: the source binds `let last_sub_clean =
Instant::now();` once before the loop and never reassigns it (the binding
is not even mutable), so the value every iteration compares against is the
loop's start time.  Per the source: `bytes_in += n`; `sub_count` is the
vector length minus the failed sends; each successful send adds `n` to
`bytes_out`; if some send failed and more than 10 seconds have passed since
`last_sub_clean`, the vector is replaced under the write lock by the filter
of still-open channels. -/
def Connector.mirrorStep (last_sub_clean : Nat) (acc : MirrorAcc)
    (ev : Nat × Nat) : MirrorAcc :=
  let now := ev.1
  let n := ev.2
  let sub_count := acc.subs.length
  let failures := (acc.subs.filter (fun s => s.closedAt now)).length
  let stats : Stats :=
    { bytes_in := acc.stats.bytes_in + n,
      sub_count := sub_count - failures,
      bytes_out := acc.stats.bytes_out + (sub_count - failures) * n }
  let subs_to_remove := failures != 0
  if subs_to_remove && (now - last_sub_clean > 10) then
    { subs := acc.subs.filter (fun s => !s.closedAt now),
      stats := stats,
      sweeps := acc.sweeps ++ [now] }
  else
    { acc with stats := stats }

/-- Loop `Connector::do_data_mirroring` over a trace of successful non-empty
reads `(time, bytes)` starting at time `start` (the loop also terminates on
a read of 0 bytes, a read error, or a failed stats publication; a trace
ends there, so only the successful iterations are folded).  Subscriber
additions by the concurrent `add_subs` task are fixed in the initial
vector; `start` is the one-time value of `last_sub_clean`. -/
def Connector.do_data_mirroring (start : Nat) (events : List (Nat × Nat))
    (subs0 : List SubChannel) (stats0 : Stats) : MirrorAcc :=
  events.foldl (Connector.mirrorStep start)
    { subs := subs0, stats := stats0, sweeps := [] }


theorem containsKey_eq_isSome (st : Registry) (p : String) :
    State.containsKey st p = (State.find_mount st p).isSome := by
  induction st with
  | nil => rfl
  | cons q st ih =>
      simp only [State.containsKey, State.find_mount, List.any_cons,
        List.find?_cons] at ih ⊢
      cases h : (q.1 == p)
      · simpa using ih
      · rfl

theorem find_mount_append_single (st : Registry) (p q : String) (m : Mount) :
    State.find_mount (st ++ [(p, m)]) q =
      match State.find_mount st q with
      | some r => some r
      | none => if p == q then some m else none := by
  induction st with
  | nil =>
      show State.find_mount [(p, m)] q = _
      cases hpq : (p == q) <;>
        simp only [State.find_mount, List.find?_cons, List.find?_nil, hpq] <;>
        rfl
  | cons e st ih =>
      show State.find_mount (e :: (st ++ [(p, m)])) q = _
      simp only [State.find_mount, List.find?_cons] at ih ⊢
      cases he : (e.1 == q)
      · exact ih
      · rfl

theorem find_mount_updateAt (st : Registry) (name : String) (f : Mount → Mount)
    (q : String) :
    State.find_mount (State.updateAt st name f) q =
      (State.find_mount st q).map
        (fun m => if q == name then f m else m) := by
  induction st with
  | nil => rfl
  | cons e st ih =>
      show State.find_mount
          ((if e.1 == name then (e.1, f e.2) else e) :: State.updateAt st name f) q = _
      simp only [State.find_mount, List.find?_cons] at ih ⊢
      cases hn : (e.1 == name)
      · simp only [hn, Bool.false_eq_true, if_false]
        cases hq : (e.1 == q)
        · exact ih
        · have : q = e.1 := by
            have := (beq_iff_eq ..).mp hq
            exact this.symm
          subst this
          simp only [hn, Bool.false_eq_true, if_false]
          rfl
      · simp only [hn, if_true]
        have hen : e.1 = name := (beq_iff_eq ..).mp hn
        cases hq : (e.1 == q)
        · simp only [hq] at ih ⊢
          exact ih
        · have hqe : e.1 = q := (beq_iff_eq ..).mp hq
          subst hqe
          simp only [hq, hn]
          rfl

/-- C9: `add_mount(p, m)` inserts `m` and returns `true` when no mount is
registered under `p`; it returns `false` and leaves the registry (hence the
existing mount) unchanged when one is; in particular `add_mount(p, m1)`
followed by `add_mount(p, m2)` leaves `m1` in place and the second call
returns `false`. -/
theorem add_mount_spec (st : Registry) (p : String) (m m2 : Mount) :
    (State.containsKey st p = false →
      State.add_mount st p m = (st ++ [(p, m)], true)
      ∧ State.find_mount (st ++ [(p, m)]) p = some m
      ∧ State.add_mount (st ++ [(p, m)]) p m2 = (st ++ [(p, m)], false)
      ∧ State.find_mount (State.add_mount (st ++ [(p, m)]) p m2).1 p = some m)
    ∧ (State.containsKey st p = true → State.add_mount st p m = (st, false)) := by
  constructor
  · intro hc
    have hfind : State.find_mount st p = none := by
      cases hf : State.find_mount st p with
      | none => rfl
      | some r => rw [containsKey_eq_isSome, hf] at hc; simp at hc
    have hadd : State.add_mount st p m = (st ++ [(p, m)], true) := by
      simp [State.add_mount, hc]
    have hfind2 : State.find_mount (st ++ [(p, m)]) p = some m := by
      rw [find_mount_append_single, hfind]
      simp
    have hc2 : State.containsKey (st ++ [(p, m)]) p = true := by
      rw [containsKey_eq_isSome, hfind2]
      rfl
    have hadd2 : State.add_mount (st ++ [(p, m)]) p m2 = (st ++ [(p, m)], false) := by
      simp [State.add_mount, hc2]
    exact ⟨hadd, hfind2, hadd2, by rw [hadd2]; exact hfind2⟩
  · intro hc
    simp [State.add_mount, hc]

/-- A mount with an open subscriber channel. -/
def mountA : Mount :=
  Mount.new "audio/mpeg" false Stats.new none none false IceMeta.empty

/-- A second, distinct mount. -/
def mountB : Mount :=
  Mount.new "audio/ogg" true Stats.new (some "S") none true IceMeta.empty

/-- Witness for C9 at the empty registry. -/
theorem add_mount_spec_witness :
    State.containsKey [] "/s" = false
    ∧ State.add_mount [] "/s" mountA = ([("/s", mountA)], true)
    ∧ State.find_mount [("/s", mountA)] "/s" = some mountA
    ∧ State.add_mount [("/s", mountA)] "/s" mountB = ([("/s", mountA)], false) := by
  have h := (add_mount_spec [] "/s" mountA mountB).1 rfl
  exact ⟨rfl, h.1, h.2.1, h.2.2.1⟩

/-- C10: a static-file request whose path after the `/static/` prefix has a
slash-separated segment `.`, `..` or `~` is answered with `404 Not found`
before any filesystem access (`respondNotFound` is the branch that writes
the 404 and returns; only `serveFile` goes on to open a file). -/
theorem static_file_rejects_traversal (static_source_dir : Option String)
    (uri : String)
    (h : (strSplit (uri.drop "/static/".length) '/').any
        (fun part => part == "." || part == ".." || part == "~") = true) :
    SocketHandler.static_file static_source_dir uri = .respondNotFound := by
  cases static_source_dir <;> simp [SocketHandler.static_file, h]

/-- Witness for C10 on the request `/static/../secret`. -/
theorem static_file_rejects_traversal_witness :
    ((strSplit ("/static/../secret".drop "/static/".length) '/').any
        (fun part => part == "." || part == ".." || part == "~") = true)
    ∧ SocketHandler.static_file (some "/var/www") "/static/../secret"
        = .respondNotFound :=
  ⟨by decide,
   static_file_rejects_traversal (some "/var/www") "/static/../secret"
     (by decide)⟩

theorem filterMap_renderField_cons (n : String) (o : Option String)
    (rest : List (String × Option String)) :
    List.filterMap renderField ((n, o) :: rest)
      = optHeader n o ++ List.filterMap renderField rest := by
  cases o <;> simp [renderField, optHeader, List.filterMap_cons]

/-- C5: parsing the headers `{ice-name: X, ice-public: 1, ice-foo: Y}` and
rendering via `as_headers()` yields exactly the two headers `icy-pub:1` and
`icy-name:X` in the order `as_headers` documents (the unknown `ice-foo` key
is dropped); in general `as_headers()` emits one `name:value` entry per
present field, with the `icy-` names and with `audio_info` keeping the
`ice-` prefix. -/
theorem iceMeta_roundtrip (X Y : String) (hX : X ≠ "") :
    (IceMeta.fromHeaders
        [⟨"ice-name", some X⟩, ⟨"ice-public", some "1"⟩,
         ⟨"ice-foo", some Y⟩]).as_headers
      = ["icy-pub:1", "icy-name:" ++ X]
    ∧ ∀ m : IceMeta,
        m.as_headers = List.filterMap renderField
          [("icy-pub", m.public.map (fun v => toString v)),
           ("icy-name", m.name), ("icy-description", m.description),
           ("icy-genre", m.genre), ("icy-url", m.url), ("icy-irc", m.irc),
           ("icy-aim", m.aim), ("icy-icq", m.icq),
           ("ice-audio-info", m.audio_info)] := by
  constructor
  · have hname : (IceMeta.fromHeaders
        [⟨"ice-name", some X⟩, ⟨"ice-public", some "1"⟩,
         ⟨"ice-foo", some Y⟩]).name = some X := by
      show (if X == "" then none else some X) = some X
      rw [beq_eq_false_iff_ne.mpr hX]
      rfl
    unfold IceMeta.as_headers
    rw [hname]
    rfl
  · intro m
    simp [IceMeta.as_headers, filterMap_renderField_cons]

/-- Witness for C5 at `X = "X"`, `Y = "Y"`. -/
theorem iceMeta_roundtrip_witness :
    ("X" : String) ≠ ""
    ∧ (IceMeta.fromHeaders
        [⟨"ice-name", some "X"⟩, ⟨"ice-public", some "1"⟩,
         ⟨"ice-foo", some "Y"⟩]).as_headers = ["icy-pub:1", "icy-name:X"] :=
  ⟨by decide, (iceMeta_roundtrip "X" "Y" (by decide)).1⟩

/-- Configuration with the admin credential `"X"` set. -/
def cfgAdminX : Config :=
  { admin_authorization := some "X", allow_unauthenticated_mounts := false,
    static_source_dir := none }

/-- Configuration with no admin credential that allows unauthenticated
mounts. -/
def cfgOpen : Config :=
  { admin_authorization := none, allow_unauthenticated_mounts := true,
    static_source_dir := none }

/-- An on-air mount with some traffic already counted. -/
def mount0 : Mount :=
  Mount.new "audio/mpeg" false
    { sub_count := 1, bytes_in := 2, bytes_out := 3 } none none false
    IceMeta.empty

/-- C1: on a fully valid admin metadata request (Authorization present and
matching the admin credential, mount found, mode `updinfo`, song present)
the handler sets the mount's song under the write lock, but then writes no
HTTP response at all before the connection ends: the list of responses sent
is empty, not `[200 OK]`. -/
theorem admin_updinfo_sets_song_but_sends_no_response :
    SocketHandler.admin cfgAdminX [("/s", mount0)]
      "/admin/metadata?mount=%2Fs&mode=updinfo&song=Hello%20World" (some "X")
      = ([("/s", { mount0 with song := some "Hello World" })], []) := by
  decide

/-- C6: a trace refuting the ten-second sweep spacing.  The reader loop
starts at time 0 with subscribers whose channels close at times 0 and 12;
reads arrive at times 11 and 12 and each hits a closed channel.  Both
iterations sweep — the code compares against the immutable loop-start
binding `last_sub_clean`, never the time of the previous sweep — so the two
sweeps are 1 second apart. -/
theorem mirror_sweeps_not_ten_seconds_apart :
    (Connector.do_data_mirroring 0 [(11, 1), (12, 1)]
        [some 0, some 12, none] Stats.new).sweeps = [11, 12]
    ∧ 12 - 11 < 10 :=
  ⟨by decide, by decide⟩

/-- An on-air mount with no subscriber credential. -/
def mountConn : Mount :=
  Mount.new "audio/ogg" false Stats.new none none false IceMeta.empty

/-- C2 counterexample: a GET attach to an existing, authorized, connected
mount whose registration send fails (`send_fails = true`) still succeeds as
a `Sink` connector, and in particular does not fail with
`MountNotConnected`: the code discards the send result with `.ok()`. -/
theorem get_attach_send_failure_still_sink :
    Connector.parse cfgOpen [("/s", mountConn)] "GET" "/s" none none [] true
      = .ok (.Sink IceMeta.empty "audio/ogg", [("/s", mountConn)])
    ∧ Connector.parse cfgOpen [("/s", mountConn)] "GET" "/s" none none [] true
      ≠ .error (.MountNotConnected "/s") :=
  ⟨rfl, fun h => Except.noConfusion h⟩

/-- C2 amended: a GET subscriber attach that passes the lookup, the
sub-auth check and the `is_connected` check succeeds as a Sink connector
regardless of whether the registration send fails — the send result is
discarded. -/
theorem get_attach_ignores_send_failure (config : Config) (st : Registry)
    (mount_path : String) (content_type authorization : Option String)
    (headers : List Header) (send_fails : Bool) (m : Mount)
    (hfind : State.find_mount st mount_path = some m)
    (hauth : (m.sub_auth.isSome && !(m.sub_auth == authorization)) = false)
    (hconn : m.is_connected = true) :
    Connector.parse config st "GET" mount_path content_type authorization
        headers send_fails
      = .ok (.Sink (Mount.metadata m) m.content_type, st) := by
  have hms : (("GET" : String) == "SOURCE") = false := rfl
  have hmg : (("GET" : String) == "GET") = true := rfl
  simp [Connector.parse, hms, hmg, hfind, hauth, hconn]

/-- Witness for the amended C2, with a failing registration send. -/
theorem get_attach_ignores_send_failure_witness :
    State.find_mount [("/t", mountConn)] "/t" = some mountConn
    ∧ (mountConn.sub_auth.isSome && !(mountConn.sub_auth == none)) = false
    ∧ mountConn.is_connected = true
    ∧ Connector.parse cfgOpen [("/t", mountConn)] "GET" "/t" none none [] true
        = .ok (.Sink (Mount.metadata mountConn) mountConn.content_type,
               [("/t", mountConn)]) :=
  ⟨rfl, rfl, rfl,
   get_attach_ignores_send_failure cfgOpen [("/t", mountConn)] "/t" none none
     [] true mountConn rfl rfl rfl⟩

/-- C3: for a SOURCE request with a Content-Type against an existing mount,
the authorization rule (`is_admin`, or `source_auth` unset, or the request's
Authorization equals `source_auth`) is applied first — an unauthorized
request gets `Unauthorized` no matter the connection state; only an
authorized request against a connected mount yields `MountHasSource`; an
authorized request against a disconnected mount calls `set_source`. -/
theorem source_attach_auth_before_conflict (config : Config) (st : Registry)
    (mount_path ct : String) (authorization : Option String)
    (headers : List Header) (send_fails : Bool) (m : Mount)
    (hfind : State.find_mount st mount_path = some m) :
    ((!isAdmin config authorization && m.source_auth.isSome
        && !(m.source_auth == authorization)) = true →
      Connector.parse config st "SOURCE" mount_path (some ct) authorization
          headers send_fails = .error .Unauthorized)
    ∧ ((!isAdmin config authorization && m.source_auth.isSome
        && !(m.source_auth == authorization)) = false →
      m.is_connected = true →
      Connector.parse config st "SOURCE" mount_path (some ct) authorization
          headers send_fails = .error (.MountHasSource mount_path))
    ∧ ((!isAdmin config authorization && m.source_auth.isSome
        && !(m.source_auth == authorization)) = false →
      m.is_connected = false →
      Connector.parse config st "SOURCE" mount_path (some ct) authorization
          headers send_fails
        = .ok (.Source (Mount.stats m),
            State.set_source_at st mount_path ct
              (IceMeta.fromHeaders headers))) := by
  have hss : (("SOURCE" : String) == "SOURCE") = true := rfl
  refine ⟨fun hU => ?_, fun hU hc => ?_, fun hU hc => ?_⟩
  · simp [Connector.parse, hss, hfind, hU]
  · simp [Connector.parse, hss, hfind, hU, hc]
  · simp [Connector.parse, hss, hfind, hU, hc]

/-- A disconnected, source-authenticated, permanent mount with nonzero
counters. -/
def mountIdle : Mount :=
  Mount.new "audio/ogg" true
    { sub_count := 4, bytes_in := 5, bytes_out := 6 } (some "S") none true
    IceMeta.empty

/-- Witness for C3: an authorized SOURCE attach to the disconnected mount
`mountIdle` swaps the source. -/
theorem source_attach_auth_before_conflict_witness :
    State.find_mount [("/s", mountIdle)] "/s" = some mountIdle
    ∧ (!isAdmin cfgOpen (some "S") && mountIdle.source_auth.isSome
        && !(mountIdle.source_auth == some "S")) = false
    ∧ mountIdle.is_connected = false
    ∧ Connector.parse cfgOpen [("/s", mountIdle)] "SOURCE" "/s"
        (some "audio/mpeg") (some "S") [] false
      = .ok (.Source (Mount.stats mountIdle),
          State.set_source_at [("/s", mountIdle)] "/s" "audio/mpeg"
            (IceMeta.fromHeaders [])) :=
  ⟨rfl, rfl, rfl,
   (source_attach_auth_before_conflict cfgOpen [("/s", mountIdle)] "/s"
      "audio/mpeg" (some "S") [] false mountIdle rfl).2.2 rfl rfl⟩

/-- C4: the `start_stats` handed to the source pump is `mount.stats()` — the
current Stats snapshot of the mount cloned before the swap, so
bytes_in/bytes_out survive a source swap — when the mount already existed,
and the all-zero Stats when the attach created the mount. -/
theorem source_attach_start_stats (config : Config) (st : Registry)
    (mount_path ct : String) (authorization : Option String)
    (headers : List Header) (send_fails : Bool) :
    (∀ m, State.find_mount st mount_path = some m →
      (!isAdmin config authorization && m.source_auth.isSome
        && !(m.source_auth == authorization)) = false →
      m.is_connected = false →
      Connector.parse config st "SOURCE" mount_path (some ct) authorization
          headers send_fails
        = .ok (.Source (Mount.stats m),
            State.set_source_at st mount_path ct
              (IceMeta.fromHeaders headers)))
    ∧ (State.find_mount st mount_path = none →
      (!isAdmin config authorization
        && !config.allow_unauthenticated_mounts) = false →
      Connector.parse config st "SOURCE" mount_path (some ct) authorization
          headers send_fails
        = .ok (.Source { sub_count := 0, bytes_in := 0, bytes_out := 0 },
            (State.add_mount st mount_path
              (Mount.new ct false Stats.new authorization none false
                (IceMeta.fromHeaders headers))).1)) := by
  have hss : (("SOURCE" : String) == "SOURCE") = true := rfl
  constructor
  · intro m hfind hU hc
    simp [Connector.parse, hss, hfind, hU, hc]
  · intro hfind hU
    simp [Connector.parse, hss, hfind, hU, Stats.new]

/-- Witness for C4: a source swap on `mountIdle` starts from its snapshot
`{4, 5, 6}`; a creating attach starts from zero. -/
theorem source_attach_start_stats_witness :
    Connector.parse cfgOpen [("/s", mountIdle)] "SOURCE" "/s"
        (some "audio/mpeg") (some "S") [] false
      = .ok (.Source { sub_count := 4, bytes_in := 5, bytes_out := 6 },
          State.set_source_at [("/s", mountIdle)] "/s" "audio/mpeg"
            (IceMeta.fromHeaders []))
    ∧ Connector.parse cfgOpen [] "SOURCE" "/s" (some "audio/mpeg") none []
        false
      = .ok (.Source { sub_count := 0, bytes_in := 0, bytes_out := 0 },
          [("/s", Mount.new "audio/mpeg" false Stats.new none none false
            (IceMeta.fromHeaders []))]) :=
  ⟨(source_attach_start_stats cfgOpen [("/s", mountIdle)] "/s" "audio/mpeg"
      (some "S") [] false).1 mountIdle rfl rfl rfl,
   (source_attach_start_stats cfgOpen [] "/s" "audio/mpeg" none [] false).2
     rfl rfl⟩

/-- The spec's content-type invariant: no mount in the registry is observed
with `is_connected()` true and an empty `content_type`. -/
def ctInvariant (st : Registry) : Prop :=
  ∀ p m, State.find_mount st p = some m → m.is_connected = true →
    m.content_type ≠ ""

/-- C7 counterexample: a SOURCE attach whose `Content-Type` header is
present but empty is accepted and creates a connected mount whose
`content_type` is the empty string, so the invariant fails on the resulting
registry. -/
theorem empty_content_type_connected_mount :
    Connector.parse cfgOpen [] "SOURCE" "/s" (some "") none [] false
      = .ok (.Source Stats.new,
          [("/s", Mount.new "" false Stats.new none none false IceMeta.empty)])
    ∧ (Mount.new "" false Stats.new none none false
        IceMeta.empty).is_connected = true
    ∧ (Mount.new "" false Stats.new none none false
        IceMeta.empty).content_type = ""
    ∧ ¬ ctInvariant
        [("/s", Mount.new "" false Stats.new none none false
          IceMeta.empty)] := by
  refine ⟨rfl, rfl, rfl, fun h => ?_⟩
  exact h "/s" _ rfl rfl rfl

/-- C7 amended: every attach (`Connector::parse`) preserves the
content-type invariant provided the Content-Type value it is given, if any,
is non-empty; an attach given an empty Content-Type can break it. -/
theorem content_type_invariant_preserved (config : Config) (st : Registry)
    (method mount_path : String) (content_type authorization : Option String)
    (headers : List Header) (send_fails : Bool) (k : ConnectorKind)
    (st2 : Registry) (hinv : ctInvariant st)
    (hct : ∀ s, content_type = some s → s ≠ "")
    (hok : Connector.parse config st method mount_path content_type
        authorization headers send_fails = .ok (k, st2)) :
    ctInvariant st2 := by
  unfold Connector.parse at hok
  split at hok
  · -- method == "SOURCE"
    split at hok
    · -- content_type = none
      exact absurd hok (by simp)
    · -- content_type = some ctv
      rename_i sopt ctv
      have hctv : ctv ≠ "" := hct ctv rfl
      split at hok
      · -- existing mount
        rename_i m hfind
        split at hok
        · exact absurd hok (by simp)
        · split at hok
          · exact absurd hok (by simp)
          · -- swap: st2 = set_source_at st mount_path s meta
            injection hok with h1
            injection h1 with hk hst
            subst hst
            intro q mq hfq hconn
            unfold State.set_source_at at hfq
            rw [find_mount_updateAt] at hfq
            cases hfm : State.find_mount st q with
            | none => rw [hfm] at hfq; exact absurd hfq (by simp)
            | some mm =>
                rw [hfm] at hfq
                simp only [Option.map_some'] at hfq
                injection hfq with hmq
                by_cases hqp : (q == mount_path) = true
                · rw [if_pos hqp] at hmq
                  rw [← hmq]
                  exact hctv
                · rw [if_neg hqp] at hmq
                  rw [← hmq] at hconn ⊢
                  exact hinv q mm hfm hconn
      · -- new mount
        rename_i hfind
        split at hok
        · exact absurd hok (by simp)
        · injection hok with h1
          injection h1 with hk hst
          subst hst
          have hck : State.containsKey st mount_path = false := by
            rw [containsKey_eq_isSome, hfind]
            rfl
          intro q mq hfq hconn
          rw [show (State.add_mount st mount_path
              (Mount.new ctv false Stats.new authorization none false
                (IceMeta.fromHeaders headers))).1
              = st ++ [(mount_path,
                  Mount.new ctv false Stats.new authorization none false
                    (IceMeta.fromHeaders headers))] from by
            simp [State.add_mount, hck]] at hfq
          rw [find_mount_append_single] at hfq
          cases hfm : State.find_mount st q with
          | some mm =>
              rw [hfm] at hfq
              injection hfq with hmq
              rw [← hmq] at hconn ⊢
              exact hinv q mm hfm hconn
          | none =>
              rw [hfm] at hfq
              by_cases hpq : (mount_path == q) = true
              · rw [if_pos hpq] at hfq
                injection hfq with hmq
                rw [← hmq]
                exact hctv
              · rw [if_neg hpq] at hfq
                exact absurd hfq (by simp)
  · -- not SOURCE
    split at hok
    · -- GET
      split at hok
      · -- existing mount
        split at hok
        · exact absurd hok (by simp)
        · split at hok
          · exact absurd hok (by simp)
          · injection hok with h1
            injection h1 with hk hst
            subst hst
            exact hinv
      · exact absurd hok (by simp)
    · exact absurd hok (by simp)

/-- Witness for the amended C7: a creating SOURCE attach with the non-empty
Content-Type `audio/mpeg` yields a registry satisfying the invariant. -/
theorem content_type_invariant_preserved_witness :
    ctInvariant [("/s", Mount.new "audio/mpeg" false Stats.new none none
      false (IceMeta.fromHeaders []))] :=
  content_type_invariant_preserved cfgOpen [] "SOURCE" "/s"
    (some "audio/mpeg") none [] false
    (.Source Stats.new)
    [("/s", Mount.new "audio/mpeg" false Stats.new none none false
      (IceMeta.fromHeaders []))]
    (fun p m hfind hconn => by simp [State.find_mount] at hfind)
    (fun s hs => by
      injection hs with hs
      rw [← hs]
      decide)
    rfl

theorem foldl_filter_keys (ks : List String) (l : Registry) :
    ks.foldl (fun acc k => acc.filter (fun q => !(q.1 == k))) l
      = l.filter (fun q => ks.all (fun k => !(q.1 == k))) := by
  induction ks generalizing l with
  | nil => simp
  | cons k ks ih =>
      rw [List.foldl_cons, ih, List.filter_filter]
      apply List.filter_congr
      intro a _
      simp [List.all_cons, Bool.and_comm]

/-- C8: `clean_disconnected_mounts` removes exactly the mounts that are
neither connected nor permanent (keeping every other entry unchanged, in
order) and returns the number of removed mounts. -/
theorem clean_disconnected_spec (st : Registry)
    (hkeys : (st.map Prod.fst).Nodup) :
    (State.clean_disconnected_mounts st).1
      = st.filter (fun q => q.2.is_connected || q.2.permanent)
    ∧ (State.clean_disconnected_mounts st).2
      = (st.filter
          (fun q => !(q.2.is_connected || q.2.permanent))).length := by
  constructor
  · show ((st.filter (fun q => !(q.2.is_connected || q.2.permanent))).map
        Prod.fst).foldl (fun acc k => acc.filter (fun q => !(q.1 == k))) st
      = _
    rw [foldl_filter_keys]
    apply List.filter_congr
    intro a ha
    by_cases hgood : (a.2.is_connected || a.2.permanent) = true
    · rw [hgood, List.all_eq_true]
      intro k hk
      obtain ⟨q, hq, rfl⟩ := List.mem_map.mp hk
      obtain ⟨hqst, hqbad⟩ := List.mem_filter.mp hq
      cases haq : (a.1 == q.1) with
      | false => rfl
      | true =>
          exfalso
          have haq' : a = q :=
            List.inj_on_of_nodup_map hkeys ha hqst ((beq_iff_eq ..).mp haq)
          rw [← haq', hgood] at hqbad
          simp at hqbad
    · have hbad : (a.2.is_connected || a.2.permanent) = false := by
        simpa using hgood
      rw [hbad]
      have hmem : a.1 ∈ (st.filter
          (fun q => !(q.2.is_connected || q.2.permanent))).map Prod.fst :=
        List.mem_map.mpr
          ⟨a, List.mem_filter.mpr ⟨ha, by simp [hbad]⟩, rfl⟩
      cases hall : ((st.filter
          (fun q => !(q.2.is_connected || q.2.permanent))).map Prod.fst).all
            (fun k => !(a.1 == k)) with
      | false => rfl
      | true =>
          exfalso
          have := List.all_eq_true.mp hall a.1 hmem
          simp at this
  · show ((st.filter (fun q => !(q.2.is_connected || q.2.permanent))).map
        Prod.fst).length = _
    rw [List.length_map]

/-- A disconnected, non-permanent mount. -/
def mountStale : Mount :=
  Mount.new "video/x" true Stats.new none none false IceMeta.empty

/-- Witness for C8: of three mounts — connected, disconnected-permanent,
disconnected-non-permanent — exactly the last is removed and the count
is 1. -/
theorem clean_disconnected_spec_witness :
    (([("a", mountA), ("b", mountIdle), ("c", mountStale)] : Registry).map
        Prod.fst).Nodup
    ∧ (State.clean_disconnected_mounts
        [("a", mountA), ("b", mountIdle), ("c", mountStale)]).1
      = [("a", mountA), ("b", mountIdle)]
    ∧ (State.clean_disconnected_mounts
        [("a", mountA), ("b", mountIdle), ("c", mountStale)]).2 = 1 := by
  have h := clean_disconnected_spec
    [("a", mountA), ("b", mountIdle), ("c", mountStale)] (by decide)
  refine ⟨by decide, ?_, ?_⟩
  · rw [h.1]; decide
  · rw [h.2]; decide
